import Mathlib

/-!
# Verification of the content-extraction pipeline of `copy-website-content-to-md`

This file is a shallow embedding, in Lean 4, of the HTML→Markdown extraction
pipeline implemented by `extractPageContent` in `src/popup.js` of the
repository, together with proofs settling the frozen claims C1–C10 about it.

Modelling conventions:

* JavaScript strings are modelled by Lean `String`/`List Char`; every regular
  expression used by the code appears here as an explicit, executable scanner
  that reproduces the JS engine's leftmost-match / greedy semantics for that
  particular pattern (each scanner is documented with the pattern it embeds).
* DOM-dependent primitives (`document.querySelector`, `textContent`,
  `cloneNode`, …) are modelled by explicit oracles packaged in environment
  structures; the control flow around them (loops, early returns, `try`/`catch`)
  is translated verbatim from the source.
* JavaScript exceptions are modelled with `Except JsError`; a `try { … }
  catch (e) { … }` block becomes a `match` on the `Except` value.
* `Date` is modelled by minutes since the Unix epoch together with the
  timezone offset (as returned by `getTimezoneOffset`), with the standard
  civil-calendar conversion, so that `toISOString` (UTC) and `toTimeString`
  (local) can be distinguished.
-/

/-! ## JavaScript string primitives -/

/-- The character class `\s` of JavaScript regular expressions, and the set of
characters removed by `String.prototype.trim`. -/
def isWsChar (c : Char) : Bool :=
  let n := c.toNat
  n = 0x20 ∨ n = 0x9 ∨ n = 0xa ∨ n = 0xb ∨ n = 0xc ∨ n = 0xd ∨
  n = 0xa0 ∨ n = 0x1680 ∨ (0x2000 ≤ n ∧ n ≤ 0x200a) ∨
  n = 0x2028 ∨ n = 0x2029 ∨ n = 0x202f ∨ n = 0x205f ∨ n = 0x3000 ∨
  n = 0xfeff

/-- Length of the maximal prefix of `cs` whose characters all satisfy `p`. -/
def charRun (p : Char → Bool) : List Char → Nat
  | [] => 0
  | c :: cs => if p c then charRun p cs + 1 else 0

/-- `String.prototype.trim` on a character list: JS whitespace is removed from
both ends. -/
def jsTrimList (l : List Char) : List Char :=
  ((l.dropWhile isWsChar).reverse.dropWhile isWsChar).reverse

/-- `String.prototype.trim`. -/
def jsTrim (s : String) : String :=
  (jsTrimList s.toList).asString

/-- `a.includes b` on JavaScript strings (substring containment). -/
def jsIncludes (s sub : String) : Bool :=
  decide (sub.toList <:+: s.toList)

/-! ## A generic scanner for global regex replacement

`replaceScanF f fuel cs` mirrors `String.prototype.replace(/pat/g, rep)`:
the matcher `f` is attempted at every position from left to right; on a match
it returns the replacement together with `k` where `k + 1` is the number of
characters consumed, and scanning resumes immediately after the match (the JS
`lastIndex` behaviour); on failure the current character is copied.  `fuel` is
an upper bound on the number of steps (the callers pass the list length, which
suffices because every matcher consumes at least one character). -/

def replaceScanF (f : List Char → Option (List Char × Nat)) :
    Nat → List Char → List Char
  | _, [] => []
  | 0, cs => cs
  | fuel + 1, c :: cs =>
    match f (c :: cs) with
    | some (rep, k) => rep ++ replaceScanF f fuel (cs.drop k)
    | none => c :: replaceScanF f fuel cs

/-- Variant of `replaceScanF` for patterns anchored with `^` under the `m`
flag: the matcher also receives a flag telling whether the current position is
at the start of a line (start of input or just after `'\n'`). -/
def replaceScanLSF (f : Bool → List Char → Option (List Char × Nat)) :
    Nat → Bool → List Char → List Char
  | _, _, [] => []
  | 0, _, cs => cs
  | fuel + 1, ls, c :: cs =>
    match f ls (c :: cs) with
    | some (rep, k) =>
      rep ++ replaceScanLSF f fuel (((c :: cs).getD k 'x') = '\n') (cs.drop k)
    | none => c :: replaceScanLSF f fuel (c = '\n') cs

/-! ## The eleven regex repairs of the Markdown Post-Processor

These embed, in order, the `replace` chain at `src/popup.js:578-605`. -/

/-- Matcher for `/\*\*\s*\*\*/g → ''` (remove empty bold markers). -/
def tryEmptyBold (cs : List Char) : Option (List Char × Nat) :=
  if cs.take 2 = ['*', '*'] then
    let w := charRun isWsChar (cs.drop 2)
    if (cs.drop (2 + w)).take 2 = ['*', '*'] then some ([], w + 3) else none
  else none

/-- Matcher for `/\*\*\*\*/g → ' '` (collapse quadruple asterisks). -/
def tryQuadStar (cs : List Char) : Option (List Char × Nat) :=
  if cs.take 4 = ['*', '*', '*', '*'] then some ([' '], 3) else none

/-- Greedy-with-backtracking helper for `\s*$` under the `m` flag: the length
of the longest whitespace prefix of `cs` after which the next character is a
newline or the end of input, if any. -/
def wsToEol : List Char → Option Nat
  | [] => some 0
  | c :: cs =>
    if isWsChar c then
      match wsToEol cs with
      | some m => some (m + 1)
      | none => if c = '\n' then some 0 else none
    else if c = '\n' then some 0 else none

/-- Matcher for `/^\*\*\s*$/gm → ''` (delete standalone `**` lines). -/
def tryLoneBoldLine (lineStart : Bool) (cs : List Char) :
    Option (List Char × Nat) :=
  if lineStart ∧ cs.take 2 = ['*', '*'] then
    match wsToEol (cs.drop 2) with
    | some l => some ([], l + 1)
    | none => none
  else none

/-- The character class `[A-ZÄÖÜ]` from `src/popup.js:587,590`. -/
def isUpperDe (c : Char) : Bool :=
  ('A' ≤ c ∧ c ≤ 'Z') ∨ c = 'Ä' ∨ c = 'Ö' ∨ c = 'Ü'

/-- The character class `[a-zäöüß]` from `src/popup.js:590`. -/
def isLowerDe (c : Char) : Bool :=
  ('a' ≤ c ∧ c ≤ 'z') ∨ c = 'ä' ∨ c = 'ö' ∨ c = 'ü' ∨ c = 'ß'

/-- Matcher for `/([.)\]])\s*(\*\*[A-ZÄÖÜ])/g → '$1\n\n$2'` (insert a break
before a bold section header following sentence punctuation). -/
def tryBoldHeaderBreak : List Char → Option (List Char × Nat)
  | [] => none
  | c :: rest =>
    if c = '.' ∨ c = ')' ∨ c = ']' then
      let w := charRun isWsChar rest
      let after := rest.drop w
      if after.take 2 = ['*', '*'] then
        match (after.drop 2).head? with
        | some x => if isUpperDe x then
            some ([c, '\n', '\n', '*', '*', x], w + 3) else none
        | none => none
      else none
    else none

/-- Matcher for `/\.([A-ZÄÖÜ][a-zäöüß])/g → '.\n\n$1'` (split sentences run
together without whitespace). -/
def tryPeriodCap : List Char → Option (List Char × Nat)
  | c :: x :: y :: _ =>
    if c = '.' ∧ isUpperDe x ∧ isLowerDe y then
      some (['.', '\n', '\n', x, y], 2)
    else none
  | _ => none

/-- Matcher for a literal substring replacement such as
`/SubscribeSign in/g → ''`. -/
def tryLit (lit rep : List Char) (cs : List Char) : Option (List Char × Nat) :=
  if lit ≠ [] ∧ cs.take lit.length = lit then some (rep, lit.length - 1)
  else none

/-- Matcher for `/\[\s*\]\([^)]*\)/g → ''` (remove empty link references). -/
def tryEmptyLink : List Char → Option (List Char × Nat)
  | c :: rest =>
    if c = '[' then
      let w := charRun isWsChar rest
      let after := rest.drop w
      if after.take 2 = [']', '('] then
        let r2 := after.drop 2
        let m := charRun (fun x => x ≠ ')') r2
        if (r2.drop m).take 1 = [')'] then some ([], w + m + 3) else none
      else none
    else none
  | [] => none

/-- Number of consecutive repetitions of `"\n---\n"` at the head of the
list (with step fuel, so the definition stays structurally recursive). -/
def hrRepsF : Nat → List Char → Nat
  | 0, _ => 0
  | fuel + 1, cs =>
    if cs.take 5 = ['\n', '-', '-', '-', '\n'] then
      hrRepsF fuel (cs.drop 5) + 1
    else 0

/-- Matcher for `/(\n---\n)+/g → '\n---\n'` (collapse duplicated thematic
breaks). -/
def tryDupHr (cs : List Char) : Option (List Char × Nat) :=
  let r := hrRepsF cs.length cs
  if r ≥ 1 then some (['\n', '-', '-', '-', '\n'], 5 * r - 1) else none

/-- Matcher for `/\n{3,}/g → '\n\n'` (collapse excessive newlines). -/
def tryManyNl (cs : List Char) : Option (List Char × Nat) :=
  let n := charRun (fun c => c = '\n') cs
  if n ≥ 3 then some (['\n', '\n'], n - 1) else none

/-- Matcher for `/[ \t]+$/gm → ''` (strip trailing horizontal whitespace on
each line). -/
def tryTrailWs : List Char → Option (List Char × Nat)
  | [] => none
  | c :: cs =>
    if c = ' ' ∨ c = '\t' then
      let m := charRun (fun c => c = ' ' ∨ c = '\t') (c :: cs)
      match (cs.drop (m - 1)).head? with
      | some '\n' => some ([], m - 1)
      | some _ => none
      | none => some ([], m - 1)
    else none

/-- One application of a plain (not line-anchored) global replacement. -/
def runStage (f : List Char → Option (List Char × Nat)) (l : List Char) :
    List Char :=
  replaceScanF f l.length l

/-- The Markdown Post-Processor: the ordered `replace`-chain plus the final
`trim` at `src/popup.js:578-606`, as a function on character lists. -/
def postProcessList (l : List Char) : List Char :=
  let l := runStage tryEmptyBold l
  let l := runStage tryQuadStar l
  let l := replaceScanLSF tryLoneBoldLine l.length true l
  let l := runStage tryBoldHeaderBreak l
  let l := runStage tryPeriodCap l
  let l := runStage (tryLit "SubscribeSign in".toList []) l
  let l := runStage (tryLit "Sign inSubscribe".toList []) l
  let l := runStage tryEmptyLink l
  let l := runStage tryDupHr l
  let l := runStage tryManyNl l
  let l := runStage tryTrailWs l
  jsTrimList l

/-- The Markdown Post-Processor on strings. -/
def postProcessMarkdown (s : String) : String :=
  (postProcessList s.toList).asString

/-! ## JavaScript `Date`: the UTC and local clocks

`extractMetadata` (src/popup.js:232-235) builds its timestamp from
`toISOString()` (which renders the **UTC** clock) and `toTimeString()` (which
renders the **local** clock).  To make the distinction expressible, a date is
modelled as minutes since the Unix epoch plus the timezone offset in minutes
(the value of `getTimezoneOffset()`, i.e. UTC minus local). -/

structure JsDate where
  utcMinutes : Int
  tzOffsetMinutes : Int
deriving DecidableEq

/-- Minutes since the epoch on the local clock. -/
def JsDate.localMinutes (d : JsDate) : Int :=
  d.utcMinutes - d.tzOffsetMinutes

/-- Standard civil-from-days conversion (proleptic Gregorian calendar):
year, month, day of the day `z0` days after 1970-01-01. -/
def civilFromDays (z0 : Int) : Int × Nat × Nat :=
  let z := z0 + 719468
  let era : Int := z.fdiv 146097
  let doe : Nat := (z - era * 146097).toNat
  let yoe : Nat := (doe - doe / 1460 + doe / 36524 - doe / 146096) / 365
  let doy : Nat := doe - (365 * yoe + yoe / 4 - yoe / 100)
  let mp : Nat := (5 * doy + 2) / 153
  let dayOfMonth : Nat := doy - (153 * mp + 2) / 5 + 1
  let m : Nat := if mp < 10 then mp + 3 else mp - 9
  let y : Int := (yoe : Int) + era * 400 + (if m ≤ 2 then 1 else 0)
  (y, m, dayOfMonth)

/-- The decimal digit character for `n % 10`. -/
def digitChar10 (n : Nat) : Char := Char.ofNat (48 + n % 10)

/-- Two-digit zero-padded decimal rendering, as in `05` (agrees with
ECMAScript's date-component rendering for `n ≤ 99`). -/
def pad2 (n : Nat) : String := ⟨[digitChar10 (n / 10), digitChar10 n]⟩

/-- Four-digit zero-padded decimal rendering, as in `1970` (agrees with
ECMAScript's `toISOString` year rendering for `0 ≤ year ≤ 9999`; outside that
range ECMAScript switches to an expanded `±YYYYYY` format, which no realistic
invocation of this extension reaches). -/
def pad4 (n : Nat) : String :=
  ⟨[digitChar10 (n / 1000), digitChar10 (n / 100), digitChar10 (n / 10),
    digitChar10 n]⟩

/-- Renders the civil date of a minutes-since-epoch instant as `YYYY-MM-DD`
(faithful to ECMAScript for years 0–9999, the realistic domain here). -/
def civilDateString (minutes : Int) : String :=
  let c := civilFromDays (minutes.fdiv 1440)
  pad4 c.1.toNat ++ "-" ++ pad2 c.2.1 ++ "-" ++ pad2 c.2.2

/-- `now.toISOString().slice(0, 10)`: the date part of the **UTC** clock. -/
def isoDateSlice10 (d : JsDate) : String :=
  civilDateString d.utcMinutes

/-- `now.toTimeString().slice(0, 5)`: `HH:MM` on the **local** clock. -/
def timeStringSlice5 (d : JsDate) : String :=
  let lm := (d.localMinutes.emod 1440).toNat
  pad2 (lm / 60) ++ ":" ++ pad2 (lm % 60)

/-- The timestamp built at src/popup.js:233-235:
`toISOString().slice(0,10) + ' at ' + toTimeString().slice(0,5)`. -/
def jsDateStr (d : JsDate) : String :=
  isoDateSlice10 d ++ " at " ++ timeStringSlice5 d

/-- The date part of the **local** clock.  This is not called by the code; it
is the reference value named by the spec sentence "both the date part and the
time part are taken from the invoking agent's local clock", used to compare
the code's behaviour against claim C5. -/
def localDateSlice10 (d : JsDate) : String :=
  civilDateString d.localMinutes

/-! ## Data model of the pipeline boundary -/

/-- `PageOptions` (§3 of the spec): the single option given by the caller. -/
structure PageOptions where
  includeImages : Bool
deriving DecidableEq

/-- The tagged result crossing the pipeline/orchestrator boundary:
`{ success: true, markdown, title, url }` or `{ success: false, error }`
(src/popup.js:608-620). -/
inductive PipelineResult where
  | ok (markdown title url : String)
  | err (message : String)
deriving DecidableEq

/-- A JavaScript exception as seen by the orchestrator's `catch`: its
`message` property may be absent (`none` models `undefined`). -/
structure JsError where
  message : Option String
deriving DecidableEq

/-- `error.message || 'Unknown error during extraction'` (src/popup.js:618).
An absent message is falsy, and so is an empty one. -/
def jsErrMessage (e : JsError) : String :=
  match e.message with
  | some m => if m = "" then "Unknown error during extraction" else m
  | none => "Unknown error during extraction"

/-- The page-and-stage environment seen by one invocation of
`extractPageContent`.  DOM-dependent stages are oracles: `locate` stands for
`getMainContent().innerHTML` (which may throw), `preprocess` for
`preprocessHtml`, and `convert` for `turndownService.turndown` with the
rules of src/popup.js:474-571 registered (the rule bodies themselves are
modelled separately below).  `metas` gives the trimmed-at-source `content`
attribute of the first `<meta>` with the given `name`/`property`. -/
structure PageEnv where
  docTitle : String
  url : String
  hostname : String
  now : JsDate
  metas : String → Option String
  locate : Except JsError String
  preprocess : String → Except JsError String
  convert : PageOptions → String → Except JsError String

/-- The `Metadata` record of src/popup.js:231-255 (`section` is renamed
`sectionName`: `section` is a Lean keyword). -/
structure Metadata where
  title : String
  url : String
  dateStr : String
  siteName : String
  authorName : Option String
  sectionName : Option String
deriving DecidableEq

/-- `getMetaContent` (src/popup.js:257-262): `meta?.content?.trim() || null` —
a missing element/attribute or a whitespace-only content gives `null`. -/
def getMetaContent (env : PageEnv) (name : String) : Option String :=
  match env.metas name with
  | some c => if jsTrim c = "" then none else some (jsTrim c)
  | none => none

/-- `hostname.replace(/^www\./, '')` (src/popup.js:241). -/
def stripWww (h : String) : String :=
  if h.startsWith "www." then (h.toList.drop 4).asString else h

/-- `extractMetadata` (src/popup.js:231-255). -/
def extractMetadata (env : PageEnv) (title : String) : Metadata :=
  { title := title
    url := env.url
    dateStr := jsDateStr env.now
    siteName :=
      (getMetaContent env "og:site_name" <|> getMetaContent env "application-name" <|>
        getMetaContent env "publisher").getD (stripWww env.hostname)
    authorName :=
      getMetaContent env "author" <|> getMetaContent env "article:author" <|>
        getMetaContent env "twitter:creator"
    sectionName :=
      getMetaContent env "article:section" <|> getMetaContent env "category" }

/-- `Array.prototype.join(sep)`. -/
def joinSep (sep : String) : List String → String
  | [] => ""
  | [a] => a
  | a :: rest => a ++ sep ++ joinSep sep rest

/-- `buildMetadataHeader` (src/popup.js:264-282). -/
def buildMetadataHeader (m : Metadata) : String :=
  let lines := ["**Source:** " ++ m.url, "**Extracted:** " ++ m.dateStr,
    "**Site:** " ++ m.siteName]
  let lines := lines ++ (match m.authorName with
    | some a => ["**Author:** " ++ a]
    | none => [])
  let lines := lines ++ (match m.sectionName with
    | some s => ["**Section:** " ++ s]
    | none => [])
  joinSep "\n\n" lines ++ "\n"

/-- The Pipeline Orchestrator: the `try`/`catch` body of `extractPageContent`
(src/popup.js:449-620).  Every stage exception aborts the remaining stages
and becomes the `err` variant via `jsErrMessage`; on success the assembled
`# title` + header + `---` + body string is post-processed and returned. -/
def extractPageContent (env : PageEnv) (options : PageOptions) :
    PipelineResult :=
  let title := if env.docTitle = "" then "Untitled Page" else env.docTitle
  match env.locate with
  | .error e => .err (jsErrMessage e)
  | .ok contentHtml =>
    match env.preprocess contentHtml with
    | .error e => .err (jsErrMessage e)
    | .ok html =>
      let metadata := extractMetadata env title
      match env.convert options html with
      | .error e => .err (jsErrMessage e)
      | .ok body =>
        let header := buildMetadataHeader metadata
        let md := "# " ++ metadata.title ++ "\n\n" ++ header ++ "\n---\n\n" ++ body
        .ok (postProcessMarkdown md) metadata.title metadata.url

/-- A concrete page whose `document.title` is `"SubscribeSign in"`.  This
title is reachable — the `document.title` getter strips and collapses ASCII
whitespace, and `"SubscribeSign in"` (no leading/trailing whitespace, a
single interior space) is a fixed point of that normalisation, produced by
`<title>SubscribeSign in</title>`.  It is truthy, so no `Untitled Page`
fallback fires; the heading line is `"# SubscribeSign in"`.  The
post-processor's UI-text removal (src/popup.js:593, `/SubscribeSign in/g`
→ `''`) erases the title from that line, leaving `"# "`, and the
trailing-whitespace repair (src/popup.js:603, `/[ \t]+$/gm`) then strips it
to a bare `"#"`. -/
def subSignTitleEnv : PageEnv :=
  { docTitle := "SubscribeSign in", url := "u", hostname := "h", now := ⟨0, 0⟩
    metas := fun _ => none
    locate := .ok "x"
    preprocess := fun h => .ok h
    convert := fun _ _ => .ok "body" }

/-! ## The Markdown Converter's custom rules

The rule *replacement functions* registered at src/popup.js:474-571 are pure
string/attribute functions and are embedded directly; the surrounding Turndown
tree reduction stays behind the `convert` oracle of `PageEnv`. -/

/-- The character class `[\s.,;:!?\-]` of src/popup.js:505. -/
def isPunctWs (c : Char) : Bool :=
  isWsChar c ∨ c = '.' ∨ c = ',' ∨ c = ';' ∨ c = ':' ∨ c = '!' ∨ c = '?' ∨
  c = '-'

/-- `/^[\s.,;:!?\-]+$/.test s`. -/
def punctWsOnly (s : String) : Bool :=
  !s.toList.isEmpty && s.toList.all isPunctWs

/-- The `strong` rule replacement (src/popup.js:497-509): trim, drop empty
content, leave punctuation/whitespace-only content unbolded, wrap the rest in
`**`. -/
def strongReplacement (content : String) : String :=
  let c := jsTrim content
  if c = "" then ""
  else if punctWsOnly c then c
  else "**" ++ c ++ "**"

/-- Case-insensitive character comparison (the `/i` flag; ASCII folding
covers every letter in the patterns below). -/
def ciEq (a b : Char) : Bool := a.toLower = b.toLower

/-- Does `cs` start with `pat`, case-insensitively? -/
def matchesCI : List Char → List Char → Bool
  | [], _ => true
  | _ :: _, [] => false
  | p :: ps, c :: cs => ciEq p c && matchesCI ps cs

/-- Hex digit value, as in a `%XY` escape. -/
def hexVal (c : Char) : Option Nat :=
  if '0' ≤ c ∧ c ≤ '9' then some (c.toNat - 48)
  else if 'A' ≤ c ∧ c ≤ 'F' then some (c.toNat - 55)
  else if 'a' ≤ c ∧ c ≤ 'f' then some (c.toNat - 87)
  else none

/-- The maximal run of `%XY` escapes at the head, as bytes, with the rest of
the input; `none` models a malformed escape (thrown `URIError`). -/
def pctRun : List Char → Option (List Nat × List Char)
  | '%' :: a :: b :: rest =>
    (match hexVal a, hexVal b with
     | some ha, some hb =>
       (match pctRun rest with
        | some (bs, r) => some ((ha * 16 + hb) :: bs, r)
        | none => none)
     | _, _ => none)
  | '%' :: _ => none
  | rest => some ([], rest)

/-- Strict UTF-8 decoding of a byte list (the validation `decodeURIComponent`
performs on decoded escape runs); `none` models a thrown `URIError`. -/
def utf8DecodeBytes : List Nat → Option (List Char)
  | [] => some []
  | b :: bs =>
    if b < 0x80 then
      (utf8DecodeBytes bs).map (fun cs => Char.ofNat b :: cs)
    else if 0xc2 ≤ b ∧ b ≤ 0xdf then
      match bs with
      | b1 :: bs2 =>
        if 0x80 ≤ b1 ∧ b1 ≤ 0xbf then
          (utf8DecodeBytes bs2).map
            (fun cs => Char.ofNat ((b - 0xc0) * 64 + (b1 - 0x80)) :: cs)
        else none
      | [] => none
    else if 0xe0 ≤ b ∧ b ≤ 0xef then
      match bs with
      | b1 :: b2 :: bs2 =>
        let lo1 := if b = 0xe0 then 0xa0 else 0x80
        let hi1 := if b = 0xed then 0x9f else 0xbf
        if lo1 ≤ b1 ∧ b1 ≤ hi1 ∧ 0x80 ≤ b2 ∧ b2 ≤ 0xbf then
          (utf8DecodeBytes bs2).map (fun cs =>
            Char.ofNat ((b - 0xe0) * 4096 + (b1 - 0x80) * 64 + (b2 - 0x80)) :: cs)
        else none
      | _ => none
    else if 0xf0 ≤ b ∧ b ≤ 0xf4 then
      match bs with
      | b1 :: b2 :: b3 :: bs2 =>
        let lo1 := if b = 0xf0 then 0x90 else 0x80
        let hi1 := if b = 0xf4 then 0x8f else 0xbf
        if lo1 ≤ b1 ∧ b1 ≤ hi1 ∧ 0x80 ≤ b2 ∧ b2 ≤ 0xbf ∧ 0x80 ≤ b3 ∧ b3 ≤ 0xbf then
          (utf8DecodeBytes bs2).map (fun cs =>
            Char.ofNat ((b - 0xf0) * 262144 + (b1 - 0x80) * 4096 +
              (b2 - 0x80) * 64 + (b3 - 0x80)) :: cs)
        else none
      | _ => none
    else none

/-- `decodeURIComponent` with fuel (one unit per consumed character):
literal characters pass through, runs of escapes are decoded as UTF-8;
`none` models a thrown `URIError`. -/
def decodeURIAux : Nat → List Char → Option (List Char)
  | _, [] => some []
  | 0, _ => none
  | fuel + 1, '%' :: rest =>
    (match pctRun ('%' :: rest) with
     | some (bs, r) =>
       (match utf8DecodeBytes bs, decodeURIAux fuel r with
        | some cs, some tail => some (cs ++ tail)
        | _, _ => none)
     | none => none)
  | fuel + 1, c :: rest =>
    (decodeURIAux fuel rest).map (fun tail => c :: tail)

/-- `decodeURIComponent`; `none` models a thrown `URIError`. -/
def decodeURIComponentOpt (s : String) : Option String :=
  (decodeURIAux s.toList.length s.toList).map List.asString

/-- Parse the capture `https?%3A%2F%2F` + a nonempty run of `tailChar`
characters (case-insensitively) at the head, returning the matched source
characters; `s?` is greedy with backtracking. -/
def encodedHttpCapture (tailChar : Char → Bool) (cs : List Char) :
    Option (List Char) :=
  if matchesCI "https%3a%2f%2f".toList cs then
    let m := charRun tailChar (cs.drop 14)
    if m = 0 then none else some (cs.take (14 + m))
  else if matchesCI "http%3a%2f%2f".toList cs then
    let m := charRun tailChar (cs.drop 13)
    if m = 0 then none else some (cs.take (13 + m))
  else none

/-- Leftmost match of
`/substackcdn\.com\/image\/fetch\/[^/]+\/+(https?%3A%2F%2F[^\s]+)/i`
(src/popup.js:523), returning the capture group. -/
def substackMatch : List Char → Option (List Char)
  | [] => none
  | c :: cs =>
    (match (if matchesCI "substackcdn.com/image/fetch/".toList (c :: cs) then
        let r0 := (c :: cs).drop 28
        let n1 := charRun (fun x => x ≠ '/') r0
        if n1 = 0 then none else
          let r1 := r0.drop n1
          let n2 := charRun (fun x => x = '/') r1
          if n2 = 0 then none
          else encodedHttpCapture (fun x => ¬ isWsChar x) (r1.drop n2)
      else none) with
     | some cap => some cap
     | none => substackMatch cs)

/-- Leftmost match of `/\/(https?%3A%2F%2F[^\s?]+)/i` (src/popup.js:533),
returning the capture group. -/
def encodedUrlMatch : List Char → Option (List Char)
  | [] => none
  | c :: cs =>
    (match (if c = '/' then
        encodedHttpCapture (fun x => ¬ isWsChar x ∧ x ≠ '?') cs
      else none) with
     | some cap => some cap
     | none => encodedUrlMatch cs)

/-- Matcher for `/\s+/g → '%20'` (src/popup.js:543). -/
def tryWsRun : List Char → Option (List Char × Nat)
  | [] => none
  | c :: cs =>
    if isWsChar c then some (['%', '2', '0'], charRun isWsChar (c :: cs) - 1)
    else none

/-- `src.replace(/\s+/g, '%20')`. -/
def spacesToPct20 (s : String) : String :=
  (runStage tryWsRun s.toList).asString

/-- The `images` rule replacement (src/popup.js:512-547).  `srcAttr` and
`altAttr` model `getAttribute` results (`none` = attribute absent; the code
coalesces both with `|| ''`). -/
def imagesReplacement (options : PageOptions) (srcAttr altAttr : Option String) :
    String :=
  let src := srcAttr.getD ""
  let alt := altAttr.getD ""
  if src = "" ∨ options.includeImages = false then ""
  else
    let substackM := substackMatch src.toList
    let src1 : String :=
      match substackM with
      | some payload =>
        (match decodeURIComponentOpt payload.asString with
         | some d => d
         | none => src)
      | none => src
    let src2 : String :=
      match substackM with
      | some _ => src1
      | none =>
        match encodedUrlMatch src1.toList with
        | some payload =>
          (match decodeURIComponentOpt payload.asString with
           | some d => d
           | none => src1)
        | none => src1
    let src3 := spacesToPct20 src2
    if alt = "" then "![](" ++ src3 ++ ")"
    else "![" ++ alt ++ "](" ++ src3 ++ ")"

/-- The context the `listItem` rule reads from the DOM around an `li` node
(src/popup.js:550-571): the parent's node name and `start` attribute, the
node names of the parent's element children in order, the node's position
among those children (the node itself is the `li` at index `pos`), and
whether the node has a following sibling. -/
structure LiContext where
  parentName : String
  parentStart : Option String
  childNames : List String
  pos : Nat
  hasNextSibling : Bool

/-- `content.replace(/^\n+/, '')`. -/
def stripLeadingNewlines (s : String) : String :=
  (s.toList.dropWhile (fun c => c = '\n')).asString

/-- `content.replace(/\n+$/, '\n')` (no `m` flag: `$` is end of input). -/
def collapseTrailingNewlines (s : String) : String :=
  let r := s.toList.reverse
  let n := charRun (fun c => c = '\n') r
  if n = 0 then s else ((r.drop n).reverse ++ ['\n']).asString

/-- `content.replace(/\n/gm, '\n    ')`. -/
def indentAfterNewlines (s : String) : String :=
  ((s.toList.map (fun c =>
    if c = '\n' then ['\n', ' ', ' ', ' ', ' '] else [c])).flatten).asString

/-- `parseInt(s, 10)`: leading JS whitespace skipped, optional sign, maximal
digit run; `none` models `NaN` (faithful to the double-precision original
for results below `2^53`). -/
def jsParseInt10 (s : String) : Option Int :=
  let l := s.toList.dropWhile isWsChar
  let signed : Int × List Char :=
    match l with
    | '-' :: r => (-1, r)
    | '+' :: r => (1, r)
    | _ => (1, l)
  let ds := signed.2.takeWhile (fun c => '0' ≤ c ∧ c ≤ '9')
  if ds = [] then none
  else some (signed.1 * ((ds.foldl (fun a c => a * 10 + (c.toNat - 48)) 0 : Nat) : Int))

/-- `start ? parseInt(start, 10) : 1` (src/popup.js:561,565): an absent or
empty `start` attribute is falsy. -/
def olStartNumber (ctx : LiContext) : Option Int :=
  match ctx.parentStart with
  | none => some 1
  | some s => if s = "" then some 1 else jsParseInt10 s

/-- `Array.from(parent.children).filter(el => el.nodeName === 'LI').indexOf(node)`
for the `li` node at position `pos` among the parent's children. -/
def liSiblingIndex (ctx : LiContext) : Nat :=
  ((ctx.childNames.take ctx.pos).filter (fun n => n == "LI")).length

/-- The item prefix computed at src/popup.js:558-567 (`NaN. ` is what a
non-numeric `start` attribute produces in JS). -/
def listItemMarker (bulletListMarker : String) (ctx : LiContext) : String :=
  if ctx.parentName = "OL" then
    match olStartNumber ctx with
    | some n => toString (n + (liSiblingIndex ctx : Int)) ++ ". "
    | none => "NaN. "
  else bulletListMarker ++ " "

/-- `/\n$/.test content`. -/
def endsWithNewline (s : String) : Bool :=
  s.toList.getLast? == some '\n'

/-- The `listItem` rule replacement (src/popup.js:550-571). -/
def listItemReplacement (bulletListMarker : String) (content : String)
    (ctx : LiContext) : String :=
  let c := indentAfterNewlines (collapseTrailingNewlines (stripLeadingNewlines content))
  listItemMarker bulletListMarker ctx ++ c ++
    (if ctx.hasNextSibling ∧ ¬ endsWithNewline c then "\n" else "")

/-- An `ol start="5"` parent whose children interleave three `li` items with
non-`li` elements. -/
def olStart5Ctx (pos : Nat) (hasNext : Bool) : LiContext :=
  ⟨"OL", some "5", ["LI", "P", "LI", "DIV", "LI"], pos, hasNext⟩

/-! ## Main Content Locator and Content Cleaner

`getMainContent`/`cleanContentElement` (src/popup.js:284-405) read the DOM
through `querySelector`/`querySelectorAll`.  Those primitives are modelled by
oracles in `DomEnv`; a selector may *throw* (the only way these DOM calls
fail is a syntactically invalid selector), which the model exposes through
`selectorThrows` so that the presence/absence of `try`/`catch` in the source
is what decides whether an error propagates. -/

/-- An element candidate as the locator sees it: its trimmed `textContent`
length, plus an identity tag so distinct elements are distinguishable. -/
structure DomElem where
  textLen : Nat
  eid : Nat
deriving DecidableEq

/-- The locator's result: a (cloned) selector match, or the body fallback. -/
inductive MainChoice where
  | fromSelector (sel : String) (e : DomElem)
  | bodyFallback
deriving DecidableEq

/-- The `siteSpecificSelectors` table (src/popup.js:286-297), in insertion
order. -/
def siteSpecificSelectors : List (String × List String) :=
  [("substack.com", [".body.markup", ".post-content", "article .body", "article"]),
   ("medium.com", ["article section", "article"])]

/-- The `genericSelectors` list (src/popup.js:300-312), in order. -/
def genericSelectors : List String :=
  ["article", "[role=\"main\"]", "main", ".post-content", ".article-content",
   ".entry-content", ".content", "#content", "[role=\"article\"]",
   ".feed-shared-update-v2", ".scaffold-layout__main"]

/-- The `siteSpecificRemovals` table of the cleaner (src/popup.js:355-374). -/
def siteSpecificRemovals : List (String × List String) :=
  [("substack.com",
    [".subscribe-widget", ".subscription-widget", ".subscribe-prompt",
     ".post-ufi", ".like-button-container", ".share-dialog", ".restack-button",
     ".frontend-components-notification", ".paywall",
     ".guest-post-subscribe-section", ".recommendations",
     ".recommendations-container"]),
   ("medium.com",
    ["[data-testid=\"audioPlayButton\"]", "[data-testid=\"headerSocialShareButton\"]"])]

/-- The `safeGenericRemovals` list of the cleaner (src/popup.js:391-394). -/
def safeGenericRemovals : List String :=
  ["nav", "[role=\"navigation\"]"]

/-- The DOM oracle for locating and cleaning.  `α` is the type of (cloned,
mutable) element states; `query` is `document.querySelector` (first match),
`removeAll sel` is the effect of `querySelectorAll(sel).forEach(el =>
el.remove())` on a state, `elemOf` produces the cloned state of the chosen
subtree, and `selectorThrows` marks the selectors on which these calls throw
(syntactically invalid ones). -/
structure DomEnv (α : Type) where
  hostname : String
  bodyTextLength : Nat
  selectorThrows : String → Bool
  query : String → Option DomElem
  removeAll : String → α → α
  elemOf : MainChoice → α

/-- `document.querySelector sel`, which throws on an invalid selector. -/
def queryE (env : DomEnv α) (sel : String) : Except JsError (Option DomElem) :=
  if env.selectorThrows sel then .error ⟨some ("invalid selector: " ++ sel)⟩
  else .ok (env.query sel)

/-- The inner site-specific loop of `getMainContent` (src/popup.js:318-323):
first listed selector whose match has trimmed text length > 100 wins;
no `try`/`catch` here, so a thrown selector error propagates. -/
def siteSelScanE (env : DomEnv α) :
    List String → Except JsError (Option MainChoice)
  | [] => .ok none
  | s :: rest =>
    match queryE env s with
    | .error e => .error e
    | .ok (some el) =>
      if el.textLen > 100 then .ok (some (.fromSelector s el))
      else siteSelScanE env rest
    | .ok none => siteSelScanE env rest

/-- The outer site-specific loop of `getMainContent` (src/popup.js:316-325):
entries whose site key is a substring of the hostname are tried in table
order. -/
def siteScanE (env : DomEnv α) :
    List (String × List String) → Except JsError (Option MainChoice)
  | [] => .ok none
  | (site, sels) :: rest =>
    if jsIncludes env.hostname site then
      match siteSelScanE env sels with
      | .error e => .error e
      | .ok (some c) => .ok (some c)
      | .ok none => siteScanE env rest
    else siteScanE env rest

/-- The generic-selector pass of `getMainContent` (src/popup.js:327-344):
accept the first match with trimmed text length > 100 whose length is at
least `0.3 × bodyTextLength` (the double comparison coincides with the
rational one `10·len ≥ 3·body` on integer text lengths); otherwise keep
scanning, falling back to the body. -/
def genericScanE (env : DomEnv α) : List String → Except JsError MainChoice
  | [] => .ok .bodyFallback
  | sel :: rest =>
    match queryE env sel with
    | .error e => .error e
    | .ok (some e) =>
      if e.textLen > 100 then
        if 10 * e.textLen ≥ 3 * env.bodyTextLength then .ok (.fromSelector sel e)
        else genericScanE env rest
      else genericScanE env rest
    | .ok none => genericScanE env rest

/-- `getMainContent` up to the choice of subtree (src/popup.js:284-345). -/
def getMainContentE (env : DomEnv α) : Except JsError MainChoice :=
  match siteScanE env siteSpecificSelectors with
  | .error e => .error e
  | .ok (some c) => .ok c
  | .ok none => genericScanE env genericSelectors

/-- One cleaner step:
`try { element.querySelectorAll(sel).forEach(el => el.remove()) } catch (e) {}`
(src/popup.js:380-384 and 397-401): a thrown selector error leaves the
element unchanged and cleaning continues. -/
def tryRemoveSelector (env : DomEnv α) (sel : String) (x : α) : α :=
  match (if env.selectorThrows sel then
      (.error ⟨some ("invalid selector: " ++ sel)⟩ : Except JsError α)
    else .ok (env.removeAll sel x)) with
  | .ok y => y
  | .error _ => x

/-- `cleanContentElement` (src/popup.js:351-405): hostname-gated
site-specific removals, then the conservative generic removals, each
selector individually guarded by `try`/`catch`. -/
def cleanContentElement (env : DomEnv α) (x : α) : α :=
  let x := siteSpecificRemovals.foldl
    (fun acc p =>
      if jsIncludes env.hostname p.1 then
        p.2.foldl (fun a s => tryRemoveSelector env s a) acc
      else acc) x
  safeGenericRemovals.foldl (fun a s => tryRemoveSelector env s a) x

/-- The locate-and-clean stage as the orchestrator sees it: every `return` of
`getMainContent` wraps its clone in `cleanContentElement`. -/
def locateStage (env : DomEnv α) : Except JsError α :=
  match getMainContentE env with
  | .error e => .error e
  | .ok c => .ok (cleanContentElement env (env.elemOf c))

/-- All selectors `getMainContent` may pass to `querySelector` for a given
hostname (early returns may skip a suffix of these). -/
def locatorSelectors (hostname : String) : List String :=
  ((siteSpecificSelectors.filter
      (fun p => jsIncludes hostname p.1)).map Prod.snd).flatten
    ++ genericSelectors

/-! ## Scanner lemmas

Head preservation, identity on match-free inputs, and preservation of a fixed
match-free prefix, for both scanner shapes, plus the analogous facts about
`jsTrimList`. -/

theorem replaceScanF_head {f : List Char → Option (List Char × Nat)}
    {c : Char} {cs : List Char} (fuel : Nat) (h : f (c :: cs) = none) :
    ∃ t, replaceScanF f fuel (c :: cs) = c :: t := by
  cases fuel with
  | zero => exact ⟨cs, rfl⟩
  | succ n => exact ⟨replaceScanF f n cs, by simp [replaceScanF, h]⟩

theorem replaceScanLSF_head {f : Bool → List Char → Option (List Char × Nat)}
    {c : Char} {s : List Char} (fuel : Nat) (b : Bool)
    (h : ∀ b2, f b2 (c :: s) = none) :
    ∃ t, replaceScanLSF f fuel b (c :: s) = c :: t := by
  cases fuel with
  | zero => exact ⟨s, rfl⟩
  | succ n =>
    exact ⟨replaceScanLSF f n (decide (c = '\n')) s, by simp [replaceScanLSF, h]⟩

theorem replaceScanF_id {f : List Char → Option (List Char × Nat)}
    (fuel : Nat) (cs : List Char) (h : ∀ t, t <:+ cs → f t = none) :
    replaceScanF f fuel cs = cs := by
  induction fuel generalizing cs with
  | zero => cases cs <;> rfl
  | succ n ih =>
    cases cs with
    | nil => rfl
    | cons c r =>
      have h0 : f (c :: r) = none := h _ (List.suffix_refl _)
      have step : replaceScanF f (n + 1) (c :: r) = c :: replaceScanF f n r := by
        simp [replaceScanF, h0]
      rw [step, ih r (fun t ht => h t (ht.trans (List.suffix_cons c r)))]

theorem replaceScanLSF_id {f : Bool → List Char → Option (List Char × Nat)}
    (fuel : Nat) (b : Bool) (cs : List Char)
    (h : ∀ b2 t, t <:+ cs → f b2 t = none) :
    replaceScanLSF f fuel b cs = cs := by
  induction fuel generalizing b cs with
  | zero => cases cs <;> rfl
  | succ n ih =>
    cases cs with
    | nil => rfl
    | cons c r =>
      have h0 : f b (c :: r) = none := h b _ (List.suffix_refl _)
      have step : replaceScanLSF f (n + 1) b (c :: r) =
          c :: replaceScanLSF f n (decide (c = '\n')) r := by
        simp [replaceScanLSF, h0]
      rw [step, ih _ r (fun b2 t ht => h b2 t (ht.trans (List.suffix_cons c r)))]

theorem replaceScanF_append {f : List Char → Option (List Char × Nat)} :
    ∀ (pre : List Char) (fuel : Nat) (rest : List Char),
    (∀ n, n < pre.length → f (pre.drop n ++ rest) = none) →
    ∃ r2, replaceScanF f fuel (pre ++ rest) = pre ++ r2 := by
  intro pre
  induction pre with
  | nil => exact fun fuel rest _ => ⟨replaceScanF f fuel rest, rfl⟩
  | cons c p ih =>
    intro fuel rest h
    cases fuel with
    | zero => exact ⟨rest, rfl⟩
    | succ n =>
      have h0 : f (c :: (p ++ rest)) = none := by simpa using h 0 (by simp)
      have step : replaceScanF f (n + 1) ((c :: p) ++ rest) =
          c :: replaceScanF f n (p ++ rest) := by
        show replaceScanF f (n + 1) (c :: (p ++ rest)) = _
        simp [replaceScanF, h0]
      obtain ⟨r2, hr⟩ := ih n rest (fun m hm => h (m + 1) (by simpa using hm))
      exact ⟨r2, by rw [step, hr]; rfl⟩

theorem replaceScanLSF_append {f : Bool → List Char → Option (List Char × Nat)} :
    ∀ (pre : List Char) (fuel : Nat) (b : Bool) (rest : List Char),
    (∀ b2 n, n < pre.length → f b2 (pre.drop n ++ rest) = none) →
    ∃ r2, replaceScanLSF f fuel b (pre ++ rest) = pre ++ r2 := by
  intro pre
  induction pre with
  | nil => exact fun fuel b rest _ => ⟨replaceScanLSF f fuel b rest, rfl⟩
  | cons c p ih =>
    intro fuel b rest h
    cases fuel with
    | zero => exact ⟨rest, rfl⟩
    | succ n =>
      have h0 : f b (c :: (p ++ rest)) = none := by simpa using h b 0 (by simp)
      have step : replaceScanLSF f (n + 1) b ((c :: p) ++ rest) =
          c :: replaceScanLSF f n (decide (c = '\n')) (p ++ rest) := by
        show replaceScanLSF f (n + 1) b (c :: (p ++ rest)) = _
        simp [replaceScanLSF, h0]
      obtain ⟨r2, hr⟩ :=
        ih n (decide (c = '\n')) rest (fun b2 m hm => h b2 (m + 1) (by simpa using hm))
      exact ⟨r2, by rw [step, hr]; rfl⟩

theorem dropWhile_append_cons {p : Char → Bool} (xs : List Char) (c : Char)
    (ys : List Char) (hc : p c = false) :
    (xs ++ c :: ys).dropWhile p = xs.dropWhile p ++ c :: ys := by
  induction xs with
  | nil => simp [List.dropWhile_cons, hc]
  | cons a l ih => by_cases h : p a <;> simp [List.dropWhile_cons, h, ih]

theorem jsTrimList_head (c : Char) (l : List Char) (hc : isWsChar c = false) :
    ∃ t, jsTrimList (c :: l) = c :: t := by
  refine ⟨(l.reverse.dropWhile isWsChar).reverse, ?_⟩
  unfold jsTrimList
  rw [List.dropWhile_cons, if_neg (by simp [hc]),
    show (c :: l).reverse = l.reverse ++ c :: [] by simp,
    dropWhile_append_cons _ _ _ hc]
  simp

theorem jsTrimList_append (pre : List Char) (rest : List Char)
    (c : Char) (mid : List Char) (c2 : Char)
    (hpre : pre = c :: mid ++ [c2])
    (hc : isWsChar c = false) (hc2 : isWsChar c2 = false) :
    ∃ r2, jsTrimList (pre ++ rest) = pre ++ r2 := by
  subst hpre
  refine ⟨(rest.reverse.dropWhile isWsChar).reverse, ?_⟩
  unfold jsTrimList
  rw [show ((c :: mid ++ [c2]) ++ rest) = c :: (mid ++ c2 :: rest) by simp,
    List.dropWhile_cons, if_neg (by simp [hc]),
    show (c :: (mid ++ c2 :: rest)).reverse =
      (rest.reverse ++ c2 :: (mid.reverse ++ [c])) by simp,
    dropWhile_append_cons _ _ _ hc2]
  simp

/-! ### Match-failure lemmas for the eleven repair matchers -/

theorem tryEmptyBold_none {c : Char} (cs : List Char) (h : ¬ c = '*') :
    tryEmptyBold (c :: cs) = none := by
  simp [tryEmptyBold, h]

theorem tryQuadStar_none {c : Char} (cs : List Char) (h : ¬ c = '*') :
    tryQuadStar (c :: cs) = none := by
  simp [tryQuadStar, h]

theorem tryLoneBoldLine_none (b : Bool) {c : Char} (cs : List Char)
    (h : ¬ c = '*') : tryLoneBoldLine b (c :: cs) = none := by
  simp [tryLoneBoldLine, h]

theorem tryBoldHeaderBreak_none {c : Char} (cs : List Char)
    (h : ¬ (c = '.' ∨ c = ')' ∨ c = ']')) :
    tryBoldHeaderBreak (c :: cs) = none := by
  simp [tryBoldHeaderBreak, h]

theorem tryPeriodCap_none {c : Char} (cs : List Char) (h : ¬ c = '.') :
    tryPeriodCap (c :: cs) = none := by
  match cs with
  | [] => rfl
  | [x] => rfl
  | x :: y :: r => simp [tryPeriodCap, h]

theorem tryLit_none {c l0 : Char} (lr rep cs : List Char) (h : ¬ c = l0) :
    tryLit (l0 :: lr) rep (c :: cs) = none := by
  simp [tryLit, h]

theorem tryEmptyLink_none {c : Char} (cs : List Char) (h : ¬ c = '[') :
    tryEmptyLink (c :: cs) = none := by
  simp [tryEmptyLink, h]

theorem hrRepsF_zero (fuel : Nat) (cs : List Char)
    (h : ¬ cs.take 5 = ['\n', '-', '-', '-', '\n']) :
    hrRepsF fuel cs = 0 := by
  cases fuel with
  | zero => rfl
  | succ n => simp [hrRepsF, h]

theorem tryDupHr_none_take (cs : List Char)
    (h : ¬ cs.take 5 = ['\n', '-', '-', '-', '\n']) :
    tryDupHr cs = none := by
  simp [tryDupHr, hrRepsF_zero _ _ h]

theorem tryDupHr_none {c : Char} (cs : List Char) (h : ¬ c = '\n') :
    tryDupHr (c :: cs) = none :=
  tryDupHr_none_take _ (by simp [h])

theorem tryManyNl_none {c : Char} (cs : List Char) (h : ¬ c = '\n') :
    tryManyNl (c :: cs) = none := by
  simp [tryManyNl, charRun, h]

theorem tryTrailWs_none {c : Char} (cs : List Char)
    (h : ¬ (c = ' ' ∨ c = '\t')) : tryTrailWs (c :: cs) = none := by
  simp [tryTrailWs, h]

/-- Head preservation through one plain stage. -/
theorem runStage_head {f : List Char → Option (List Char × Nat)} {c : Char}
    {s : List Char} (h : ∀ r, f (c :: r) = none) :
    ∃ t, runStage f (c :: s) = c :: t :=
  replaceScanF_head _ (h s)

/-- The post-processed text of a string starting with `'#'` still starts with
`'#'`: no repair pattern can begin at a `'#'`, and `trim` keeps it. -/
theorem postProcessList_head_hash (l : List Char) :
    ∃ t, postProcessList ('#' :: l) = '#' :: t := by
  simp only [postProcessList]
  obtain ⟨t1, e1⟩ := runStage_head (c := '#') (s := l)
    (fun r => tryEmptyBold_none r (by decide))
  rw [e1]
  obtain ⟨t2, e2⟩ := runStage_head (c := '#') (s := t1)
    (fun r => tryQuadStar_none r (by decide))
  rw [e2]
  obtain ⟨t3, e3⟩ := replaceScanLSF_head (c := '#') (s := t2) _ true
    (fun b => tryLoneBoldLine_none b t2 (by decide))
  rw [e3]
  obtain ⟨t4, e4⟩ := runStage_head (c := '#') (s := t3)
    (fun r => tryBoldHeaderBreak_none r (by decide))
  rw [e4]
  obtain ⟨t5, e5⟩ := runStage_head (c := '#') (s := t4)
    (fun r => tryPeriodCap_none r (by decide))
  rw [e5]
  obtain ⟨t6, e6⟩ := runStage_head
    (f := tryLit "SubscribeSign in".toList []) (c := '#') (s := t5)
    (fun r => tryLit_none _ _ r (by decide))
  rw [e6]
  obtain ⟨t7, e7⟩ := runStage_head
    (f := tryLit "Sign inSubscribe".toList []) (c := '#') (s := t6)
    (fun r => tryLit_none _ _ r (by decide))
  rw [e7]
  obtain ⟨t8, e8⟩ := runStage_head (c := '#') (s := t7)
    (fun r => tryEmptyLink_none r (by decide))
  rw [e8]
  obtain ⟨t9, e9⟩ := runStage_head (c := '#') (s := t8)
    (fun r => tryDupHr_none r (by decide))
  rw [e9]
  obtain ⟨t10, e10⟩ := runStage_head (c := '#') (s := t9)
    (fun r => tryManyNl_none r (by decide))
  rw [e10]
  obtain ⟨t11, e11⟩ := runStage_head (c := '#') (s := t10)
    (fun r => tryTrailWs_none r (by decide))
  rw [e11]
  exact jsTrimList_head '#' _ (by decide)

/-- Post-processing a string whose character list begins with `'#'` yields a
string that still begins with `'#'`. -/
theorem postProcessMarkdown_toList_hash (s : String) (r : List Char)
    (hs : s.toList = '#' :: r) :
    ∃ t, (postProcessMarkdown s).toList = '#' :: t := by
  unfold postProcessMarkdown
  rw [hs]
  obtain ⟨t, ht⟩ := postProcessList_head_hash r
  rw [ht]
  exact ⟨t, rfl⟩

/-! ## Claim C1 -/

/-- **C1, amended.**  For every input document and `PageOptions` value the
pipeline returns exactly one of the success and error variants (never both,
never neither); whenever it returns the success variant, the `markdown` field
is a non-empty string that begins with the character `'#'`.  (The claim's
stronger guarantee of the two-character opening `"# "` fails even for titles
the `document.title` getter can actually produce: when the title is the UI
string `"SubscribeSign in"` — already stripped and collapsed, hence
reachable — the post-processor's UI-text removal erases the whole title from
the heading line and the trailing-whitespace repair then reduces `"# "` to a
bare `#` — see the counterexample.) -/
theorem c1_pipeline_result_shape (env : PageEnv) (opts : PageOptions) :
    ((∃ md t u, extractPageContent env opts = .ok md t u) ∨
       (∃ msg, extractPageContent env opts = .err msg)) ∧
    (¬ ((∃ md t u, extractPageContent env opts = .ok md t u) ∧
       (∃ msg, extractPageContent env opts = .err msg))) ∧
    (∀ md t u, extractPageContent env opts = .ok md t u →
       md ≠ "" ∧ md.toList.head? = some '#') := by
  have hcases : ∀ r : PipelineResult,
      (∃ md t u, r = .ok md t u) ∨ (∃ msg, r = .err msg) := by
    intro r
    cases r with
    | ok md t u => exact .inl ⟨md, t, u, rfl⟩
    | err m => exact .inr ⟨m, rfl⟩
  refine ⟨hcases _, ?_, ?_⟩
  · rintro ⟨⟨md, t, u, h1⟩, ⟨msg, h2⟩⟩
    rw [h1] at h2
    exact PipelineResult.noConfusion h2
  · intro md t u h
    simp only [extractPageContent] at h
    rcases hl : env.locate with e | ch
    · rw [hl] at h
      simp at h
    rw [hl] at h
    simp only [] at h
    rcases hp : env.preprocess ch with e | html
    · rw [hp] at h
      simp at h
    rw [hp] at h
    simp only [] at h
    rcases hc : env.convert opts html with e | body
    · rw [hc] at h
      simp at h
    rw [hc] at h
    simp only [PipelineResult.ok.injEq] at h
    obtain ⟨hmd, ht, hu⟩ := h
    obtain ⟨t2, ht2⟩ := postProcessMarkdown_toList_hash
      ("# " ++ (extractMetadata env
          (if env.docTitle = "" then "Untitled Page" else env.docTitle)).title ++
        "\n\n" ++ buildMetadataHeader (extractMetadata env
          (if env.docTitle = "" then "Untitled Page" else env.docTitle)) ++
        "\n---\n\n" ++ body) _ rfl
    rw [hmd] at ht2
    constructor
    · intro he
      rw [he] at ht2
      exact List.noConfusion ht2
    · rw [ht2]
      rfl

/-- **C1, counterexample.**  A document whose title is `"SubscribeSign in"` —
a value the whitespace-normalising `document.title` getter can return, and
truthy, so the `Untitled Page` fallback does not fire — produces a success
result whose markdown does **not** begin with the two characters `"# "`: the
UI-text removal `/SubscribeSign in/g → ''` (src/popup.js:593, step 6) erases
the title from the heading line `"# SubscribeSign in"`, leaving `"# "`, and
the trailing-whitespace repair `/[ \t]+$/gm` (src/popup.js:603, step 11)
strips that line to a bare `#`. -/
theorem c1_counterexample :
    extractPageContent subSignTitleEnv ⟨true⟩ =
      .ok "#\n\n**Source:** u\n\n**Extracted:** 1970-01-01 at 00:00\n\n**Site:** h\n\n---\n\nbody"
        "SubscribeSign in" "u" ∧
    ("#\n\n**Source:** u\n\n**Extracted:** 1970-01-01 at 00:00\n\n**Site:** h\n\n---\n\nbody" : String).toList.take 2 ≠
      ['#', ' '] := by
  constructor
  · decide
  · decide

/-- **C1, witness** for the amended theorem at a concrete environment. -/
theorem c1_witness :
    ("#\n\n**Source:** u\n\n**Extracted:** 1970-01-01 at 00:00\n\n**Site:** h\n\n---\n\nbody" : String) ≠ "" ∧
    ("#\n\n**Source:** u\n\n**Extracted:** 1970-01-01 at 00:00\n\n**Site:** h\n\n---\n\nbody" : String).toList.head? =
      some '#' :=
  (c1_pipeline_result_shape subSignTitleEnv ⟨true⟩).2.2
    "#\n\n**Source:** u\n\n**Extracted:** 1970-01-01 at 00:00\n\n**Site:** h\n\n---\n\nbody"
    "SubscribeSign in" "u" (by decide)

/-! ## Claim C2 -/

/-- **C2, amended.**  Every exception raised inside a pipeline stage makes the
pipeline return the error variant carrying that exception's message, with the
generic message `"Unknown error during extraction"` (capital `U`) substituted
when the exception's message is absent or empty; no markdown accompanies a
failure result. -/
theorem c2_error_propagation (env : PageEnv) (opts : PageOptions) (e : JsError) :
    (env.locate = .error e → extractPageContent env opts = .err (jsErrMessage e)) ∧
    (∀ ch, env.locate = .ok ch → env.preprocess ch = .error e →
      extractPageContent env opts = .err (jsErrMessage e)) ∧
    (∀ ch html, env.locate = .ok ch → env.preprocess ch = .ok html →
      env.convert opts html = .error e →
      extractPageContent env opts = .err (jsErrMessage e)) ∧
    ((e.message = none ∨ e.message = some "") →
      jsErrMessage e = "Unknown error during extraction") ∧
    (∀ m, e.message = some m → m ≠ "" → jsErrMessage e = m) := by
  refine ⟨?_, ?_, ?_, ?_, ?_⟩
  · intro hl
    simp only [extractPageContent]
    rw [hl]
  · intro ch hl hp
    simp only [extractPageContent]
    rw [hl]
    simp only []
    rw [hp]
  · intro ch html hl hp hc
    simp only [extractPageContent]
    rw [hl]
    simp only []
    rw [hp]
    simp only []
    rw [hc]
  · intro hm
    rcases hm with hm | hm <;> simp [jsErrMessage, hm]
  · intro m hm hne
    simp [jsErrMessage, hm, hne]

/-- A page environment whose locate stage throws an exception carrying no
message at all. -/
def noMsgErrEnv : PageEnv :=
  { docTitle := "T", url := "u", hostname := "h", now := ⟨0, 0⟩
    metas := fun _ => none
    locate := .error ⟨none⟩
    preprocess := fun h => .ok h
    convert := fun _ x => .ok x }

/-- **C2, counterexample.**  The generic fallback message produced by the code
is `"Unknown error during extraction"` (capital `U`), not the claim's
`"unknown error during extraction"`. -/
theorem c2_counterexample :
    extractPageContent noMsgErrEnv ⟨true⟩ = .err "Unknown error during extraction" ∧
    "Unknown error during extraction" ≠ "unknown error during extraction" := by
  exact ⟨by decide, by decide⟩

/-- **C2, witness** for the amended theorem at a concrete environment. -/
theorem c2_witness :
    extractPageContent noMsgErrEnv ⟨true⟩ = .err (jsErrMessage ⟨none⟩) ∧
    jsErrMessage ⟨none⟩ = "Unknown error during extraction" :=
  ⟨(c2_error_propagation noMsgErrEnv ⟨true⟩ ⟨none⟩).1 rfl,
   (c2_error_propagation noMsgErrEnv ⟨true⟩ ⟨none⟩).2.2.2.1 (Or.inl rfl)⟩

/-! ## Claim C5 -/

/-- **C5, amended.**  The Metadata Extractor's timestamp always has the
19-character form `YYYY-MM-DD at HH:MM` (24-hour clock, minute precision),
but the two halves read **different clocks**: the date part renders the civil
date of the **UTC** clock (`toISOString().slice(0,10)`), while the time part
renders hours and minutes of the **local** clock
(`toTimeString().slice(0,5)`). -/
theorem c5_timestamp_format (d : JsDate) :
    jsDateStr d =
      pad4 (civilFromDays (d.utcMinutes.fdiv 1440)).1.toNat ++ "-" ++
      pad2 (civilFromDays (d.utcMinutes.fdiv 1440)).2.1 ++ "-" ++
      pad2 (civilFromDays (d.utcMinutes.fdiv 1440)).2.2 ++ " at " ++
      pad2 ((d.localMinutes.emod 1440).toNat / 60) ++ ":" ++
      pad2 ((d.localMinutes.emod 1440).toNat % 60) ∧
    (jsDateStr d).length = 19 ∧
    (∀ (env : PageEnv) (t : String),
      (extractMetadata env t).dateStr = jsDateStr env.now) ∧
    (d.localMinutes.emod 1440).toNat / 60 < 24 ∧
    (d.localMinutes.emod 1440).toNat % 60 < 60 := by
  refine ⟨rfl, rfl, fun _ _ => rfl, ?_, ?_⟩
  · have h1 : d.localMinutes.emod 1440 < 1440 := Int.emod_lt_of_pos _ (by norm_num)
    have h2 : (0 : Int) ≤ d.localMinutes.emod 1440 := Int.emod_nonneg _ (by norm_num)
    have h3 : (d.localMinutes.emod 1440).toNat < 1440 := by omega
    omega
  · exact Nat.mod_lt _ (by norm_num)

/-- **C5, counterexample.**  At 2024-01-01 00:30 UTC with a timezone 300
minutes behind UTC (`getTimezoneOffset() = 300`), the local clock reads
2023-12-31 19:30, yet the timestamp renders `2024-01-01 at 19:30`: the date
part is the UTC date, not the local one, refuting the claim that both parts
come from the invoking agent's local clock. -/
theorem c5_counterexample :
    jsDateStr ⟨19723 * 1440 + 30, 300⟩ = "2024-01-01 at 19:30" ∧
    localDateSlice10 ⟨19723 * 1440 + 30, 300⟩ = "2023-12-31" ∧
    jsDateStr ⟨19723 * 1440 + 30, 300⟩ ≠
      localDateSlice10 ⟨19723 * 1440 + 30, 300⟩ ++ " at " ++
        timeStringSlice5 ⟨19723 * 1440 + 30, 300⟩ := by
  refine ⟨by decide, by decide, by decide⟩

/-! ## Claim C8 -/

/-- **C8, amended.**  The strong/bold rule trims its content first and then:
returns the empty string when the trimmed content is empty; returns the
**trimmed** content unbolded (not the original content unchanged) when the
trimmed content consists solely of punctuation/whitespace characters; and
otherwise returns the trimmed content wrapped in exactly two asterisks on
each side. -/
theorem c8_strong_rule (content : String) :
    (jsTrim content = "" → strongReplacement content = "") ∧
    (jsTrim content ≠ "" → punctWsOnly (jsTrim content) = true →
      strongReplacement content = jsTrim content) ∧
    (jsTrim content ≠ "" → punctWsOnly (jsTrim content) = false →
      strongReplacement content = "**" ++ jsTrim content ++ "**") := by
  refine ⟨?_, ?_, ?_⟩
  · intro h
    simp [strongReplacement, h]
  · intro h hp
    simp [strongReplacement, h, hp]
  · intro h hp
    simp [strongReplacement, h, hp]

/-- **C8, counterexample.**  For the content `" - "` the trimmed content is
`"-"`, which is punctuation-only; the rule returns `"-"`, not the original
content `" - "` unchanged, refuting the claim's "returns the content …
otherwise unchanged". -/
theorem c8_counterexample :
    jsTrim " - " = "-" ∧ punctWsOnly (jsTrim " - ") = true ∧
    strongReplacement " - " = "-" ∧ strongReplacement " - " ≠ " - " := by
  exact ⟨by decide, by decide, by decide, by decide⟩

/-- **C8, witness** for the amended theorem at a concrete input. -/
theorem c8_witness : strongReplacement " - " = jsTrim " - " :=
  (c8_strong_rule " - ").2.1 (by decide) (by decide)

/-! ## Claim C7 -/

/-- **C7.**  For a list item whose parent is an ordered list, the numeric
prefix of the converted item is the parent's resolved `start` value (the
`start` attribute parsed in base 10, defaulting to `1` when the attribute is
absent or empty) plus the zero-based index of the item among the parent's
`li` children only; intervening non-`li` siblings do not shift the numbering,
as the `start="5"` example shows. -/
theorem c7_ordered_list_numbering (bm content : String) (ctx : LiContext)
    (n : Int)
    (hOL : ctx.parentName = "OL")
    (_hLI : ctx.childNames.getD ctx.pos "" = "LI")
    (hn : olStartNumber ctx = some n) :
    listItemMarker bm ctx = toString (n + (liSiblingIndex ctx : Int)) ++ ". " ∧
    (∃ r, listItemReplacement bm content ctx = listItemMarker bm ctx ++ r) ∧
    (listItemReplacement "-" "one" (olStart5Ctx 0 true) = "5. one\n" ∧
      listItemReplacement "-" "two" (olStart5Ctx 2 true) = "6. two\n" ∧
      listItemReplacement "-" "three" (olStart5Ctx 4 false) = "7. three") := by
  refine ⟨by simp [listItemMarker, hOL, hn], ?_, by decide, by decide, by decide⟩
  refine ⟨indentAfterNewlines (collapseTrailingNewlines (stripLeadingNewlines content)) ++
    (if ctx.hasNextSibling ∧ ¬ endsWithNewline (indentAfterNewlines
        (collapseTrailingNewlines (stripLeadingNewlines content))) then "\n" else ""), ?_⟩
  exact String.ext (List.append_assoc _ _ _)

/-- **C7, witness** at the middle item of the `start="5"` example. -/
theorem c7_witness :
    listItemMarker "-" (olStart5Ctx 2 true) =
      toString ((5 : Int) + (liSiblingIndex (olStart5Ctx 2 true) : Int)) ++ ". " :=
  (c7_ordered_list_numbering "-" "two" (olStart5Ctx 2 true) 5
    (by decide) (by decide) (by decide)).1

/-! ## Claim C6 -/

/-- **C6.**  The image rule (with `includeImages` true and a `src` present)
recovers the original image URL from a CDN image-proxy `src`.  In order:
(1) the claim's example goes through the "first percent-encoded https URL in
the path" fallback pattern (the `substackcdn.com` proxy pattern does not
match `cdn.example`); (2) a matching `substackcdn.com` proxy `src` is
decoded through the specific pattern; (3) when the `substackcdn.com` pattern
captures a payload whose decoding throws (`%ZZ` is not a valid escape:
`substackMatch` returns the capture, `decodeURIComponentOpt` returns
`none`), the original `src` is kept unmodified; (4) likewise when the
fallback pattern's capture fails to decode, the original `src` is kept
unmodified; (5) a `src` on which neither pattern matches at all (here the
capture needs two `%2F`s and finds only one) passes through literally; and
(6) in general, when neither pattern matches, the `src` passes through with
only whitespace percent-encoded. -/
theorem c6_image_url_recovery :
    imagesReplacement ⟨true⟩
        (some "https://cdn.example/image/fetch/w_200/https%3A%2F%2Fphotos.example.com%2Fa.jpg")
        none = "![](https://photos.example.com/a.jpg)" ∧
    imagesReplacement ⟨true⟩
        (some "https://substackcdn.com/image/fetch/w_1,q_5/https%3A%2F%2Fa.com%2Fb.png")
        (some "pic") = "![pic](https://a.com/b.png)" ∧
    (substackMatch "https://substackcdn.com/image/fetch/w_1/https%3A%2F%2Fa%ZZ".toList =
        some "https%3A%2F%2Fa%ZZ".toList ∧
      decodeURIComponentOpt "https%3A%2F%2Fa%ZZ" = none ∧
      imagesReplacement ⟨true⟩
        (some "https://substackcdn.com/image/fetch/w_1/https%3A%2F%2Fa%ZZ")
        none = "![](https://substackcdn.com/image/fetch/w_1/https%3A%2F%2Fa%ZZ)") ∧
    (substackMatch "https://cdn.example/image/fetch/w/https%3A%2F%2Fa%ZZ".toList = none ∧
      encodedUrlMatch "https://cdn.example/image/fetch/w/https%3A%2F%2Fa%ZZ".toList =
        some "https%3A%2F%2Fa%ZZ".toList ∧
      imagesReplacement ⟨true⟩
        (some "https://cdn.example/image/fetch/w/https%3A%2F%2Fa%ZZ")
        none = "![](https://cdn.example/image/fetch/w/https%3A%2F%2Fa%ZZ)") ∧
    imagesReplacement ⟨true⟩
        (some "https://substackcdn.com/image/fetch/w_1/https%3A%2F%GG")
        none = "![](https://substackcdn.com/image/fetch/w_1/https%3A%2F%GG)" ∧
    (∀ src alt : String, src ≠ "" →
      substackMatch src.toList = none →
      encodedUrlMatch src.toList = none →
      imagesReplacement ⟨true⟩ (some src) (some alt) =
        (if alt = "" then "![](" ++ spacesToPct20 src ++ ")"
         else "![" ++ alt ++ "](" ++ spacesToPct20 src ++ ")")) := by
  refine ⟨by decide, by decide, ⟨by decide, by decide, by decide⟩,
    ⟨by decide, by decide, by decide⟩, by decide, ?_⟩
  intro src alt hne hsm hem
  simp only [String.toList] at hsm hem
  simp [imagesReplacement, hne, hsm, hem]

/-- **C6, witness** for the pass-through conjunct at a concrete `src`. -/
theorem c6_witness :
    imagesReplacement ⟨true⟩ (some "plain.png") (some "") =
      "![](" ++ spacesToPct20 "plain.png" ++ ")" := by
  have h := c6_image_url_recovery.2.2.2.2.2 "plain.png" "" (by decide) (by decide)
    (by decide)
  simpa using h

/-! ## Claims C3 and C4: locator lemmas -/

/-- Does a generic selector qualify in the ratio-gated pass?  (Matched, text
longer than 100 characters, and at least 30% of the body text.) -/
def qualifiesB {α : Type} (env : DomEnv α) (sel : String) : Bool :=
  match env.query sel with
  | some e => decide (e.textLen > 100) &&
      decide (10 * e.textLen ≥ 3 * env.bodyTextLength)
  | none => false

theorem genericScanE_skip {α : Type} (env : DomEnv α) :
    ∀ (l1 rest : List String),
    (∀ s ∈ l1, env.selectorThrows s = false) →
    (∀ s ∈ l1, qualifiesB env s = false) →
    genericScanE env (l1 ++ rest) = genericScanE env rest := by
  intro l1
  induction l1 with
  | nil => intro rest _ _; rfl
  | cons s l ih =>
    intro rest hthrow hq
    have hts : env.selectorThrows s = false := hthrow s (by simp)
    have hqs : qualifiesB env s = false := hq s (by simp)
    show genericScanE env (s :: (l ++ rest)) = _
    rw [genericScanE]
    rw [show queryE env s = .ok (env.query s) by simp [queryE, hts]]
    cases hqe : env.query s with
    | none =>
      simp only []
      exact ih rest (fun x hx => hthrow x (by simp [hx]))
        (fun x hx => hq x (by simp [hx]))
    | some e =>
      simp only []
      rw [qualifiesB, hqe] at hqs
      by_cases h100 : e.textLen > 100
      · have hratio : ¬ 10 * e.textLen ≥ 3 * env.bodyTextLength := by
          simp [h100] at hqs
          omega
        rw [if_pos h100, if_neg hratio]
        exact ih rest (fun x hx => hthrow x (by simp [hx]))
          (fun x hx => hq x (by simp [hx]))
      · rw [if_neg h100]
        exact ih rest (fun x hx => hthrow x (by simp [hx]))
          (fun x hx => hq x (by simp [hx]))

theorem genericScanE_mem {α : Type} (env : DomEnv α) :
    ∀ (l : List String) (s : String) (e : DomElem),
    genericScanE env l = .ok (.fromSelector s e) → s ∈ l := by
  intro l
  induction l with
  | nil => intro s e h; exact absurd h (by simp [genericScanE])
  | cons a l ih =>
    intro s e h
    rw [genericScanE] at h
    cases hqe : queryE env a with
    | error er => rw [hqe] at h; exact absurd h (by simp)
    | ok o =>
      rw [hqe] at h
      cases o with
      | none => exact List.mem_cons_of_mem a (ih s e h)
      | some el =>
        simp only [] at h
        by_cases h100 : el.textLen > 100
        · rw [if_pos h100] at h
          by_cases hr : 10 * el.textLen ≥ 3 * env.bodyTextLength
          · rw [if_pos hr] at h
            simp only [Except.ok.injEq] at h
            cases h
            exact List.mem_cons_self a l
          · rw [if_neg hr] at h
            exact List.mem_cons_of_mem a (ih s e h)
        · rw [if_neg h100] at h
          exact List.mem_cons_of_mem a (ih s e h)

/-! ## Claim C3 -/

/-- **C3.**  In the generic-selector pass of the Main Content Locator (the
site-specific pass having produced nothing), consider a selector `sel` whose
match `e` has trimmed text length above 100 and which the scan reaches (no
earlier generic selector qualifies).  Then the locator returns `e` if and
only if `e`'s text length is at least 0.3 × the body text length; below that
ratio the scan moves on, and if no generic selector qualifies at all the
locator falls back to the whole body. -/
theorem c3_generic_ratio_gate {α : Type} (env : DomEnv α)
    (l1 l2 : List String) (sel : String) (e : DomElem)
    (hsite : siteScanE env siteSpecificSelectors = .ok none)
    (hsplit : genericSelectors = l1 ++ sel :: l2)
    (hnotin : sel ∉ l2)
    (hthrow : ∀ s ∈ genericSelectors, env.selectorThrows s = false)
    (hq : env.query sel = some e)
    (hlen : e.textLen > 100)
    (hskip : ∀ s ∈ l1, qualifiesB env s = false) :
    (getMainContentE env = .ok (.fromSelector sel e) ↔
      10 * e.textLen ≥ 3 * env.bodyTextLength) ∧
    ((∀ s ∈ genericSelectors, qualifiesB env s = false) →
      getMainContentE env = .ok .bodyFallback) := by
  have hmain : getMainContentE env = genericScanE env genericSelectors := by
    rw [getMainContentE, hsite]
  have hthrow1 : ∀ s ∈ l1, env.selectorThrows s = false := by
    intro s hs
    exact hthrow s (by rw [hsplit]; exact List.mem_append_left _ hs)
  have htsel : env.selectorThrows sel = false :=
    hthrow sel (by rw [hsplit]; simp)
  have hreach : genericScanE env genericSelectors =
      genericScanE env (sel :: l2) := by
    rw [hsplit]
    exact genericScanE_skip env l1 (sel :: l2) hthrow1 hskip
  have hstep : genericScanE env (sel :: l2) =
      (if 10 * e.textLen ≥ 3 * env.bodyTextLength
        then .ok (.fromSelector sel e) else genericScanE env l2) := by
    rw [genericScanE]
    rw [show queryE env sel = .ok (env.query sel) by simp [queryE, htsel], hq]
    simp only [if_pos hlen]
  constructor
  · constructor
    · intro hres
      by_contra hratio
      rw [hmain, hreach, hstep, if_neg hratio] at hres
      exact hnotin (genericScanE_mem env l2 sel e hres)
    · intro hratio
      rw [hmain, hreach, hstep, if_pos hratio]
  · intro hall
    rw [hmain, hsplit]
    have h1 : ∀ s ∈ l1 ++ sel :: l2, qualifiesB env s = false := by
      rw [← hsplit]; exact hall
    have h2 : ∀ s ∈ l1 ++ sel :: l2, env.selectorThrows s = false := by
      rw [← hsplit]; exact hthrow
    rw [show (l1 ++ sel :: l2) = (l1 ++ sel :: l2) ++ [] by simp,
      genericScanE_skip env (l1 ++ sel :: l2) [] h2 h1]
    rfl

/-- A concrete environment for the generic pass: hostname matches no
site-specific key, `article` matches a 400-character element out of a
1000-character body. -/
def c3DemoEnv : DomEnv Unit :=
  { hostname := "example.org", bodyTextLength := 1000
    selectorThrows := fun _ => false
    query := fun s => if s = "article" then some ⟨400, 1⟩ else none
    removeAll := fun _ x => x
    elemOf := fun _ => () }

/-- **C3, witness**: the ratio gate accepts `article` (400 ≥ 0.3 × 1000) in
the concrete environment. -/
theorem c3_witness :
    getMainContentE c3DemoEnv = .ok (.fromSelector "article" ⟨400, 1⟩) :=
  ((c3_generic_ratio_gate c3DemoEnv []
      ["[role=\"main\"]", "main", ".post-content", ".article-content",
       ".entry-content", ".content", "#content", "[role=\"article\"]",
       ".feed-shared-update-v2", ".scaffold-layout__main"]
      "article" ⟨400, 1⟩ rfl rfl (by decide) (fun _ _ => rfl) rfl (by decide)
      (fun s hs => absurd hs (List.not_mem_nil s))).1).mpr (by decide)

/-! ## Claim C4 -/

theorem siteSelScanE_ok {α : Type} (env : DomEnv α) :
    ∀ (sels : List String),
    (∀ s ∈ sels, env.selectorThrows s = false) →
    ∃ o, siteSelScanE env sels = .ok o := by
  intro sels
  induction sels with
  | nil => intro _; exact ⟨none, rfl⟩
  | cons s l ih =>
    intro h
    have hts : env.selectorThrows s = false := h s (by simp)
    rw [siteSelScanE,
      show queryE env s = .ok (env.query s) by simp [queryE, hts]]
    cases env.query s with
    | none => exact ih (fun x hx => h x (by simp [hx]))
    | some el =>
      simp only []
      by_cases h100 : el.textLen > 100
      · exact ⟨some (.fromSelector s el), by rw [if_pos h100]⟩
      · rw [if_neg h100]
        exact ih (fun x hx => h x (by simp [hx]))

theorem siteScanE_ok {α : Type} (env : DomEnv α) :
    ∀ (table : List (String × List String)),
    (∀ p ∈ table, jsIncludes env.hostname p.1 = true →
      ∀ s ∈ p.2, env.selectorThrows s = false) →
    ∃ o, siteScanE env table = .ok o := by
  intro table
  induction table with
  | nil => intro _; exact ⟨none, rfl⟩
  | cons p rest ih =>
    intro h
    obtain ⟨site, sels⟩ := p
    rw [siteScanE]
    by_cases hinc : jsIncludes env.hostname site = true
    · rw [if_pos hinc]
      obtain ⟨o, ho⟩ := siteSelScanE_ok env sels (h (site, sels) (by simp) hinc)
      rw [ho]
      cases o with
      | some c => exact ⟨some c, rfl⟩
      | none => exact ih (fun q hq => h q (by simp [hq]))
    · rw [if_neg hinc]
      exact ih (fun q hq => h q (by simp [hq]))

theorem genericScanE_ok {α : Type} (env : DomEnv α) :
    ∀ (l : List String),
    (∀ s ∈ l, env.selectorThrows s = false) →
    ∃ c, genericScanE env l = .ok c := by
  intro l
  induction l with
  | nil => intro _; exact ⟨.bodyFallback, rfl⟩
  | cons s rest ih =>
    intro h
    have hts : env.selectorThrows s = false := h s (by simp)
    rw [genericScanE,
      show queryE env s = .ok (env.query s) by simp [queryE, hts]]
    cases env.query s with
    | none => exact ih (fun x hx => h x (by simp [hx]))
    | some el =>
      simp only []
      by_cases h100 : el.textLen > 100
      · by_cases hr : 10 * el.textLen ≥ 3 * env.bodyTextLength
        · exact ⟨.fromSelector s el, by rw [if_pos h100, if_pos hr]⟩
        · rw [if_pos h100, if_neg hr]
          exact ih (fun x hx => h x (by simp [hx]))
      · rw [if_neg h100]
        exact ih (fun x hx => h x (by simp [hx]))

/-- **C4.**  Selector errors never surface from the locate-and-clean stage as
the pipeline's error variant: (1) each cleaner removal is wrapped in its own
`try`/`catch`, so a throwing selector leaves the element unchanged and
cleaning continues with the remaining selectors — for *any* assignment of
throwing selectors; and (2) the locator's own `querySelector` calls only ever
receive the fixed selector literals of its two tables, all syntactically
valid CSS — under that validity assumption (the hypothesis), locating plus
cleaning always yields a success value, whatever the cleaner's selectors do. -/
theorem c4_selector_errors_recovered {α : Type} (env : DomEnv α)
    (hloc : ∀ s ∈ locatorSelectors env.hostname, env.selectorThrows s = false) :
    (∀ sel x, env.selectorThrows sel = true → tryRemoveSelector env sel x = x) ∧
    (∀ sel x, env.selectorThrows sel = false →
      tryRemoveSelector env sel x = env.removeAll sel x) ∧
    (∃ y, locateStage env = .ok y) := by
  refine ⟨?_, ?_, ?_⟩
  · intro sel x h
    simp [tryRemoveSelector, h]
  · intro sel x h
    simp [tryRemoveSelector, h]
  · have hsite : ∀ p ∈ siteSpecificSelectors,
        jsIncludes env.hostname p.1 = true →
        ∀ s ∈ p.2, env.selectorThrows s = false := by
      intro p hp hinc s hs
      apply hloc
      unfold locatorSelectors
      apply List.mem_append_left
      simp only [List.mem_flatten, List.mem_map]
      exact ⟨p.2, ⟨p, List.mem_filter.mpr ⟨hp, hinc⟩, rfl⟩, hs⟩
    have hgen : ∀ s ∈ genericSelectors, env.selectorThrows s = false := by
      intro s hs
      exact hloc s (List.mem_append_right _ hs)
    obtain ⟨o, ho⟩ := siteScanE_ok env siteSpecificSelectors hsite
    have : ∃ c, getMainContentE env = .ok c := by
      rw [getMainContentE, ho]
      cases o with
      | some c => exact ⟨c, rfl⟩
      | none => exact genericScanE_ok env genericSelectors hgen
    obtain ⟨c, hc⟩ := this
    exact ⟨cleanContentElement env (env.elemOf c), by rw [locateStage, hc]⟩

/-- A substack page environment in which **every cleaner selector throws**
(both the substack-specific removals and the generic ones) while the
locator's fixed selectors are valid. -/
def c4DemoEnv : DomEnv Unit :=
  { hostname := "substack.com", bodyTextLength := 500
    selectorThrows := fun s =>
      decide (s ∈ (siteSpecificRemovals.map Prod.snd).flatten) ||
        decide (s ∈ safeGenericRemovals)
    query := fun _ => none
    removeAll := fun _ x => x
    elemOf := fun _ => () }

/-- **C4, witness**: with all cleaner selectors throwing, each removal is
skipped (element unchanged) and the locate-and-clean stage still succeeds. -/
theorem c4_witness :
    tryRemoveSelector c4DemoEnv ".paywall" () = () ∧
    (∃ y, locateStage c4DemoEnv = .ok y) :=
  ⟨(c4_selector_errors_recovered c4DemoEnv (by decide)).1 ".paywall" ()
      (by decide),
   (c4_selector_errors_recovered c4DemoEnv (by decide)).2.2⟩

/-! ## Claim C10: the `# Untitled Page` heading survives post-processing

`preC10` is the 21-character prefix `"# Untitled Page\n\n**So"` that the
assembled markdown of an untitled page starts with (heading line, blank line,
and the opening of the `**Source:**` header line).  No repair pattern can
begin inside this prefix, whatever follows it. -/

def preC10 : List Char :=
  ['#', ' ', 'U', 'n', 't', 'i', 't', 'l', 'e', 'd', ' ', 'P', 'a', 'g', 'e',
   '\n', '\n', '*', '*', 'S', 'o']

theorem preC10_emptyBold (r : List Char) :
    ∀ n, n < preC10.length → tryEmptyBold (preC10.drop n ++ r) = none := by
  intro n hn
  have h21 : n < 21 := by simpa [preC10] using hn
  interval_cases n <;>
    simp [preC10, tryEmptyBold, charRun, isWsChar]

theorem preC10_quadStar (r : List Char) :
    ∀ n, n < preC10.length → tryQuadStar (preC10.drop n ++ r) = none := by
  intro n hn
  have h21 : n < 21 := by simpa [preC10] using hn
  interval_cases n <;> simp [preC10, tryQuadStar]

theorem preC10_loneBold (r : List Char) :
    ∀ b n, n < preC10.length →
      tryLoneBoldLine b (preC10.drop n ++ r) = none := by
  intro b n hn
  have h21 : n < 21 := by simpa [preC10] using hn
  interval_cases n <;>
    simp [preC10, tryLoneBoldLine, wsToEol, isWsChar]

theorem preC10_boldHeader (r : List Char) :
    ∀ n, n < preC10.length → tryBoldHeaderBreak (preC10.drop n ++ r) = none := by
  intro n hn
  have h21 : n < 21 := by simpa [preC10] using hn
  interval_cases n <;>
    simp [preC10, tryBoldHeaderBreak, charRun, isWsChar]

theorem preC10_periodCap (r : List Char) :
    ∀ n, n < preC10.length → tryPeriodCap (preC10.drop n ++ r) = none := by
  intro n hn
  have h21 : n < 21 := by simpa [preC10] using hn
  interval_cases n <;> exact tryPeriodCap_none _ (by decide)

theorem preC10_subSign (r : List Char) :
    ∀ n, n < preC10.length →
      tryLit "SubscribeSign in".toList [] (preC10.drop n ++ r) = none := by
  intro n hn
  have h21 : n < 21 := by simpa [preC10] using hn
  interval_cases n <;> simp [preC10, tryLit]

theorem preC10_signSub (r : List Char) :
    ∀ n, n < preC10.length →
      tryLit "Sign inSubscribe".toList [] (preC10.drop n ++ r) = none := by
  intro n hn
  have h21 : n < 21 := by simpa [preC10] using hn
  interval_cases n <;> simp [preC10, tryLit]

theorem preC10_emptyLink (r : List Char) :
    ∀ n, n < preC10.length → tryEmptyLink (preC10.drop n ++ r) = none := by
  intro n hn
  have h21 : n < 21 := by simpa [preC10] using hn
  interval_cases n <;> simp [preC10, tryEmptyLink]

theorem preC10_dupHr (r : List Char) :
    ∀ n, n < preC10.length → tryDupHr (preC10.drop n ++ r) = none := by
  intro n hn
  have h21 : n < 21 := by simpa [preC10] using hn
  interval_cases n <;> (apply tryDupHr_none_take; simp [preC10])

theorem preC10_manyNl (r : List Char) :
    ∀ n, n < preC10.length → tryManyNl (preC10.drop n ++ r) = none := by
  intro n hn
  have h21 : n < 21 := by simpa [preC10] using hn
  interval_cases n <;> simp [preC10, tryManyNl, charRun]

theorem preC10_trailWs (r : List Char) :
    ∀ n, n < preC10.length → tryTrailWs (preC10.drop n ++ r) = none := by
  intro n hn
  have h21 : n < 21 := by simpa [preC10] using hn
  interval_cases n <;> simp [preC10, tryTrailWs, charRun]

/-- No repair of the post-processor touches the fixed 21-character prefix
`"# Untitled Page\n\n**So"`, whatever follows it. -/
theorem postProcessList_preC10 (r : List Char) :
    ∃ r2, postProcessList (preC10 ++ r) = preC10 ++ r2 := by
  simp only [postProcessList, runStage]
  obtain ⟨r1, e1⟩ := replaceScanF_append preC10 ((preC10 ++ r).length) r
    (preC10_emptyBold r)
  rw [e1]
  obtain ⟨r2, e2⟩ := replaceScanF_append preC10 ((preC10 ++ r1).length) r1
    (preC10_quadStar r1)
  rw [e2]
  obtain ⟨r3, e3⟩ := replaceScanLSF_append preC10 ((preC10 ++ r2).length) true r2
    (preC10_loneBold r2)
  rw [e3]
  obtain ⟨r4, e4⟩ := replaceScanF_append preC10 ((preC10 ++ r3).length) r3
    (preC10_boldHeader r3)
  rw [e4]
  obtain ⟨r5, e5⟩ := replaceScanF_append preC10 ((preC10 ++ r4).length) r4
    (preC10_periodCap r4)
  rw [e5]
  obtain ⟨r6, e6⟩ := replaceScanF_append preC10 ((preC10 ++ r5).length) r5
    (preC10_subSign r5)
  rw [e6]
  obtain ⟨r7, e7⟩ := replaceScanF_append preC10 ((preC10 ++ r6).length) r6
    (preC10_signSub r6)
  rw [e7]
  obtain ⟨r8, e8⟩ := replaceScanF_append preC10 ((preC10 ++ r7).length) r7
    (preC10_emptyLink r7)
  rw [e8]
  obtain ⟨r9, e9⟩ := replaceScanF_append preC10 ((preC10 ++ r8).length) r8
    (preC10_dupHr r8)
  rw [e9]
  obtain ⟨r10, e10⟩ := replaceScanF_append preC10 ((preC10 ++ r9).length) r9
    (preC10_manyNl r9)
  rw [e10]
  obtain ⟨r11, e11⟩ := replaceScanF_append preC10 ((preC10 ++ r10).length) r10
    (preC10_trailWs r10)
  rw [e11]
  exact jsTrimList_append preC10 r11 '#'
    [' ', 'U', 'n', 't', 'i', 't', 'l', 'e', 'd', ' ', 'P', 'a', 'g', 'e',
     '\n', '\n', '*', '*', 'S'] 'o' (by decide) (by decide) (by decide)

/-- Post-processing any string whose character list extends `preC10` keeps
the 15-character heading `# Untitled Page` intact. -/
theorem postProcessMarkdown_take15 (s : String) (rr : List Char)
    (hs : s.toList = preC10 ++ rr) :
    (postProcessMarkdown s).toList.take 15 = "# Untitled Page".toList := by
  unfold postProcessMarkdown
  rw [hs]
  obtain ⟨r2, h2⟩ := postProcessList_preC10 rr
  rw [h2]
  show (preC10 ++ r2).take 15 = "# Untitled Page".toList
  rw [List.take_append_of_le_length (by decide)]
  decide

/-! ## Claim C10 -/

set_option maxHeartbeats 2000000 in
/-- **C10.**  When `document.title` is the empty string (a browser reports an
absent `<title>` as `""`), the pipeline substitutes the fixed string
`Untitled Page`: a success result then carries `title = "Untitled Page"` and
its markdown begins with `# Untitled Page`; and in all cases the title field
of a success result is non-empty. -/
theorem c10_untitled_fallback (env : PageEnv) (opts : PageOptions) :
    (∀ md t u, extractPageContent env opts = .ok md t u → t ≠ "") ∧
    (env.docTitle = "" →
      ∀ md t u, extractPageContent env opts = .ok md t u →
        t = "Untitled Page" ∧ md.toList.take 15 = "# Untitled Page".toList) := by
  constructor
  · intro md t u h
    simp only [extractPageContent] at h
    rcases hl : env.locate with e | ch
    · rw [hl] at h
      simp at h
    rw [hl] at h
    simp only [] at h
    rcases hp : env.preprocess ch with e | html
    · rw [hp] at h
      simp at h
    rw [hp] at h
    simp only [] at h
    rcases hc : env.convert opts html with e | body
    · rw [hc] at h
      simp at h
    rw [hc] at h
    simp only [PipelineResult.ok.injEq] at h
    obtain ⟨hmd, ht, hu⟩ := h
    rw [← ht]
    by_cases hd : env.docTitle = ""
    · simp [extractMetadata, hd]
    · simp [extractMetadata, hd]
  · intro hd md t u h
    simp only [extractPageContent, hd, if_true] at h
    rcases hl : env.locate with e | ch
    · rw [hl] at h
      exact absurd h (by exact fun hcon => PipelineResult.noConfusion hcon)
    rw [hl] at h
    simp only [] at h
    rcases hp : env.preprocess ch with e | html
    · rw [hp] at h
      exact absurd h (by exact fun hcon => PipelineResult.noConfusion hcon)
    rw [hp] at h
    simp only [] at h
    rcases hc : env.convert opts html with e | body
    · rw [hc] at h
      exact absurd h (by exact fun hcon => PipelineResult.noConfusion hcon)
    rw [hc] at h
    simp only [PipelineResult.ok.injEq] at h
    obtain ⟨hmd, ht, hu⟩ := h
    have htitle : (extractMetadata env "Untitled Page").title = "Untitled Page" := rfl
    refine ⟨by rw [← ht, htitle], ?_⟩
    rw [← hmd]
    exact postProcessMarkdown_take15 _ _ rfl

/-- A concrete page with an empty `document.title`. -/
def c10DemoEnv : PageEnv :=
  { docTitle := "", url := "u", hostname := "h", now := ⟨0, 0⟩
    metas := fun _ => none
    locate := .ok "x"
    preprocess := fun h => .ok h
    convert := fun _ _ => .ok "body" }

/-- **C10, witness** at the concrete untitled page. -/
theorem c10_witness :
    ("Untitled Page" : String) = "Untitled Page" ∧
    ("# Untitled Page\n\n**Source:** u\n\n**Extracted:** 1970-01-01 at 00:00\n\n**Site:** h\n\n---\n\nbody" : String).toList.take 15 =
      "# Untitled Page".toList :=
  (c10_untitled_fallback c10DemoEnv ⟨true⟩).2 rfl
    "# Untitled Page\n\n**Source:** u\n\n**Extracted:** 1970-01-01 at 00:00\n\n**Site:** h\n\n---\n\nbody"
    "Untitled Page" "u" (by decide)

/-! ## Claim C9: the Post-Processor is not idempotent -/

theorem dropWhile_dropWhile (p : Char → Bool) (l : List Char) :
    (l.dropWhile p).dropWhile p = l.dropWhile p := by
  induction l with
  | nil => rfl
  | cons a t ih =>
    by_cases h : p a
    · simp [List.dropWhile_cons, h, ih]
    · simp [List.dropWhile_cons, h]

theorem dropWhile_eq_cons_head {p : Char → Bool} :
    ∀ {l : List Char} {c : Char} {t : List Char},
    l.dropWhile p = c :: t → p c = false := by
  intro l
  induction l with
  | nil => intro c t h; exact absurd h (by simp)
  | cons a r ih =>
    intro c t h
    by_cases ha : p a
    · rw [List.dropWhile_cons, if_pos ha] at h
      exact ih h
    · rw [List.dropWhile_cons, if_neg ha] at h
      cases h
      exact eq_false_of_ne_true ha

/-- `trim` is idempotent. -/
theorem jsTrimList_idem (l : List Char) :
    jsTrimList (jsTrimList l) = jsTrimList l := by
  unfold jsTrimList
  set A := l.dropWhile isWsChar with hA
  set B := A.reverse.dropWhile isWsChar with hB
  have hBsuf : B <:+ A.reverse := by rw [hB]; exact List.dropWhile_suffix _
  have h1 : B.reverse.dropWhile isWsChar = B.reverse := by
    cases hBr : B.reverse with
    | nil => rfl
    | cons b t =>
      obtain ⟨C, hC⟩ := hBsuf
      have hArev : A = B.reverse ++ C.reverse := by
        rw [← List.reverse_reverse A, ← hC, List.reverse_append]
      have hAc : l.dropWhile isWsChar = b :: (t ++ C.reverse) := by
        rw [← hA, hArev, hBr]
        rfl
      have hb : isWsChar b = false := dropWhile_eq_cons_head hAc
      exact List.dropWhile_cons_of_neg (by simp [hb])
  rw [h1, List.reverse_reverse, hB, dropWhile_dropWhile]

theorem tryLoneBoldLine_false (t : List Char) : tryLoneBoldLine false t = none := by
  simp [tryLoneBoldLine]

/-- Decidable check that no repair pattern of the post-processor matches at
any position of `l` (for the line-anchored pattern, at any line-start
state). -/
def noRepairMatches (l : List Char) : Bool :=
  l.tails.all fun t =>
    (tryEmptyBold t).isNone && (tryQuadStar t).isNone &&
    (tryLoneBoldLine true t).isNone && (tryBoldHeaderBreak t).isNone &&
    (tryPeriodCap t).isNone && (tryLit "SubscribeSign in".toList [] t).isNone &&
    (tryLit "Sign inSubscribe".toList [] t).isNone && (tryEmptyLink t).isNone &&
    (tryDupHr t).isNone && (tryManyNl t).isNone && (tryTrailWs t).isNone

/-- On an input where no repair pattern matches, the eleven repairs are the
identity and the post-processor reduces to `trim`. -/
theorem postProcessList_eq_trim_of_noRepair (l : List Char)
    (h : noRepairMatches l = true) :
    postProcessList l = jsTrimList l := by
  have hall : ∀ t, t <:+ l →
      tryEmptyBold t = none ∧ tryQuadStar t = none ∧
      tryLoneBoldLine true t = none ∧ tryBoldHeaderBreak t = none ∧
      tryPeriodCap t = none ∧ tryLit "SubscribeSign in".toList [] t = none ∧
      tryLit "Sign inSubscribe".toList [] t = none ∧ tryEmptyLink t = none ∧
      tryDupHr t = none ∧ tryManyNl t = none ∧ tryTrailWs t = none := by
    intro t ht
    have h2 := (List.all_eq_true.mp h) t ((List.mem_tails _ _).mpr ht)
    simp only [Bool.and_eq_true, Option.isNone_iff_eq_none] at h2
    obtain ⟨⟨⟨⟨⟨⟨⟨⟨⟨⟨h1, h2'⟩, h3⟩, h4⟩, h5⟩, h6⟩, h7⟩, h8⟩, h9⟩, h10⟩, h11⟩ := h2
    exact ⟨h1, h2', h3, h4, h5, h6, h7, h8, h9, h10, h11⟩
  simp only [postProcessList, runStage]
  rw [replaceScanF_id _ _ (fun t ht => (hall t ht).1),
    replaceScanF_id _ _ (fun t ht => (hall t ht).2.1),
    replaceScanLSF_id _ _ _ (fun b t ht => by
      cases b with
      | true => exact (hall t ht).2.2.1
      | false => exact tryLoneBoldLine_false t),
    replaceScanF_id _ _ (fun t ht => (hall t ht).2.2.2.1),
    replaceScanF_id _ _ (fun t ht => (hall t ht).2.2.2.2.1),
    replaceScanF_id _ _ (fun t ht => (hall t ht).2.2.2.2.2.1),
    replaceScanF_id _ _ (fun t ht => (hall t ht).2.2.2.2.2.2.1),
    replaceScanF_id _ _ (fun t ht => (hall t ht).2.2.2.2.2.2.2.1),
    replaceScanF_id _ _ (fun t ht => (hall t ht).2.2.2.2.2.2.2.2.1),
    replaceScanF_id _ _ (fun t ht => (hall t ht).2.2.2.2.2.2.2.2.2.1),
    replaceScanF_id _ _ (fun t ht => (hall t ht).2.2.2.2.2.2.2.2.2.2)]

/-- The post-processor's output is already trimmed. -/
theorem postProcessList_trimmed (l : List Char) :
    jsTrimList (postProcessList l) = postProcessList l := by
  simp only [postProcessList]
  exact jsTrimList_idem _

/-- **C9, amended.**  The Markdown Post-Processor is *not* idempotent in
general (see the counterexample: stripping trailing whitespace can expose a
3-newline run that only a second pass collapses).  A second application
yields the same text exactly when no repair pattern matches anywhere in the
first application's output; in particular the final `trim` by itself is
always stable. -/
theorem c9_postprocessor_second_run (s : String)
    (h : noRepairMatches (postProcessMarkdown s).toList = true) :
    postProcessMarkdown (postProcessMarkdown s) = postProcessMarkdown s := by
  have hppm : (postProcessMarkdown s).toList = postProcessList s.toList := by
    unfold postProcessMarkdown
    generalize postProcessList s.toList = X
    rfl
  have h1 : postProcessList ((postProcessMarkdown s).toList) =
      jsTrimList ((postProcessMarkdown s).toList) :=
    postProcessList_eq_trim_of_noRepair _ h
  have h2 : jsTrimList ((postProcessMarkdown s).toList) =
      (postProcessMarkdown s).toList := by
    rw [hppm]
    exact postProcessList_trimmed _
  rw [show postProcessMarkdown (postProcessMarkdown s) =
      (postProcessList ((postProcessMarkdown s).toList)).asString from by
    unfold postProcessMarkdown
    rfl]
  rw [h1, h2, hppm]
  unfold postProcessMarkdown
  rfl

/-- **C9, counterexample.**  On `"a\n \n \nb"` the first run strips the two
whitespace-only lines, creating the 3-newline run `"a\n\n\nb"`; the second
run collapses it to `"a\n\nb"`, so running the post-processor twice differs
from running it once. -/
theorem c9_counterexample :
    postProcessMarkdown "a\n \n \nb" = "a\n\n\nb" ∧
    postProcessMarkdown (postProcessMarkdown "a\n \n \nb") = "a\n\nb" ∧
    postProcessMarkdown (postProcessMarkdown "a\n \n \nb") ≠
      postProcessMarkdown "a\n \n \nb" := by
  exact ⟨by decide, by decide, by decide⟩

/-- **C9, witness** for the amended theorem at a repair-free input. -/
theorem c9_witness :
    postProcessMarkdown (postProcessMarkdown "hello world") =
      postProcessMarkdown "hello world" :=
  c9_postprocessor_second_run "hello world" (by decide)
